import Mathlib

set_option maxHeartbeats 1000000

/-!
Shallow embedding of src/code/algorithm/bimodal_drqn.py (class
BimodalDRQNAlgorithm).  Numeric tensor cells are modelled by rationals;
autograd tracking is carried as a boolean flag on each cell; the external
collaborators (the DuelingBimodalDRQN networks, the torch reductions,
math.sqrt, autograd, the AdamW step rule and the sampler randomness) enter
as function parameters.  Raised Python exceptions appear as the error case
of Except.
-/

/-- Observation array of one modality (a numeric array, flattened). -/
abbrev Obs := List ℚ

/-- Recurrent hidden or cell state tensor. -/
abbrev Hidden := List ℚ

/-- Bimodal observation dictionary with the entries sound and vision. -/
structure BimodalObs where
  sound : Obs
  vision : Obs
  deriving DecidableEq

/-- One environment step; the fields are in the constructor order of
BimodalTransition as consumed by zip(*episode) in update_policy_net:
audio, video, action, next audio, next video, reward, done. -/
structure BimodalTransition where
  audio : Obs
  video : Obs
  action : ℕ
  nextAudio : Obs
  nextVideo : Obs
  reward : ℚ
  done : Bool
  deriving DecidableEq

/-- Episode: the ordered list of transitions of one rollout. -/
abbrev BimodalEpisode := List BimodalTransition

/-- Value of a scalar tensor cell together with its autograd flag: tracked
is true when the value participates in the gradient graph. -/
structure TVal where
  val : ℚ
  tracked : Bool
  deriving DecidableEq

/-- Fresh tensor cell built from plain data (no gradient tracking). -/
def tvalConst (q : ℚ) : TVal := ⟨q, false⟩

def tvalZero : TVal := tvalConst 0

/-- Tensor.detach: same value, removed from the gradient graph. -/
def tvalDetach (t : TVal) : TVal := ⟨t.val, false⟩

def tvalAdd (a b : TVal) : TVal := ⟨a.val + b.val, a.tracked || b.tracked⟩

def tvalSub (a b : TVal) : TVal := ⟨a.val - b.val, a.tracked || b.tracked⟩

def tvalMul (a b : TVal) : TVal := ⟨a.val * b.val, a.tracked || b.tracked⟩

/-- Binary step of the torch.Tensor.max reduction. -/
def tmax2 (a b : TVal) : TVal := ⟨max a.val b.val, a.tracked || b.tracked⟩

/-- Row reduction of torch.Tensor.max over the action dimension.  A q-value
row is nonempty in the real program (the action space is nonempty); the
empty case carries a junk value and is never relied on. -/
def rowMaxT : List TVal → TVal
  | [] => tvalZero
  | x :: xs => xs.foldl tmax2 x

/-- Mode flag of an nn.Module. -/
inductive NetMode where
  | train : NetMode
  | evalMode : NetMode
  deriving DecidableEq

/-- Record of one network forward call: batch size, time-step count, whether
gradients were tracked during the call, and the module mode at call time. -/
structure ForwardCall where
  batchSize : ℕ
  timeStep : ℕ
  gradTracking : Bool
  mode : NetMode
  deriving DecidableEq

/-- Dual-stream value network collaborator (DuelingBimodalDRQN): forward
takes the audio batch, the video batch, the batch size, the time-step count
and the recurrent pair, and returns the per-batch q-value rows of the last
time step together with the new recurrent pair; initHidden models
init_hidden_states, building the zero state for a batch size. -/
structure DualNet where
  forward : List (List Obs) → List (List Obs) → ℕ → ℕ → Hidden → Hidden →
      List (List TVal) × Hidden × Hidden
  initHidden : ℕ → Hidden × Hidden

/-- Parameter tensor: its shape and its flattened data. -/
structure PTensor where
  shape : List ℕ
  data : List ℚ
  deriving DecidableEq

/-- Parameter as the update step sees it: value tensor plus the optional
gradient tensor (None when the parameter received no gradient). -/
structure PState where
  data : PTensor
  grad : Option PTensor
  deriving DecidableEq

/-- Python-level failures reachable on the modelled code paths. -/
inductive PyErr where
  | insufficientData : PyErr
  | zeroDivision : PyErr
  deriving DecidableEq

/-- Observable effects of one update_policy_net call. -/
inductive UEvent where
  | sampledBatch : UEvent
  | computedLoss : UEvent
  | backward : UEvent
  | steppedOptimizer : UEvent
  deriving DecidableEq

/-- Boolean success test on a Python-modelled computation. -/
def exceptOk {α : Type} : Except PyErr α → Bool
  | .ok _ => true
  | .error _ => false

/-- Algorithm state owned by BimodalDRQNAlgorithm: a heap of parameter
tensors addressed by references, the references held by the two networks
and by the optimizer, the gradient slots, the replay buffer and the
hyperparameters that the claims mention. -/
structure AlgState where
  store : ℕ → PTensor
  grads : ℕ → Option PTensor
  policyRefs : List ℕ
  targetRefs : List ℕ
  optimRefs : List ℕ
  replayBuffer : List BimodalEpisode
  batchSize : ℕ
  timeStep : ℕ
  gamma : ℚ

/-- Constructor of BimodalDRQNAlgorithm restricted to what the claims need:
the two successive DuelingBimodalDRQN constructions allocate fresh, disjoint
parameter storage (policy network first, target network second), and the
AdamW optimizer is registered on the policy parameters only. -/
def mkAlgorithm (n : ℕ) (paramInit : ℕ → PTensor) (buf : List BimodalEpisode)
    (b t : ℕ) (g : ℚ) : AlgState :=
  { store := paramInit
    grads := fun _ => none
    policyRefs := List.range n
    targetRefs := (List.range n).map (fun r => r + n)
    optimRefs := List.range n
    replayBuffer := buf
    batchSize := b
    timeStep := t
    gamma := g }

/-- Rounding of a natural number to the nearest float32-representable value
(24-bit significand, round half to even), which torch.FloatTensor applies to
every stored integer.  Exponent overflow (values at or beyond two to the
128th) is not modelled; action indices are tiny. -/
def float32NatRound (n : ℕ) : ℕ :=
  if n.log2 ≤ 23 then n
  else
    let s := n.log2 - 23
    let q := n / 2 ^ s
    let r := n % 2 ^ s
    let h := 2 ^ (s - 1)
    if h < r ∨ (r = h ∧ q % 2 = 1) then (q + 1) * 2 ^ s else q * 2 ^ s

/-- Tensor.long() on a scalar: truncation toward zero (clamped at zero for
negative inputs, which never occur on the modelled path). -/
def longTrunc (q : ℚ) : ℕ := (Int.tdiv q.num (q.den : ℤ)).toNat

/-- Scan step of torch.argmax: keep the first index attaining the running
maximum, replacing it only on a strictly larger value. -/
def argmaxAux : List ℚ → ℕ → ℕ → ℚ → ℕ
  | [], _, bi, _ => bi
  | x :: xs, i, bi, bv =>
      if bv < x then argmaxAux xs (i + 1) i x else argmaxAux xs (i + 1) bi bv

/-- torch.argmax on a flattened tensor: the index of the first maximal
entry, the documented torch semantics. -/
def listArgmax : List ℚ → ℕ
  | [] => 0
  | x :: xs => argmaxAux xs 1 0 x

/-- Episodes eligible for sampling: length at least the window length. -/
def eligibleEpisodes (w : ℕ) (buf : List BimodalEpisode) : List BimodalEpisode :=
  buf.filter (fun e => decide (w ≤ e.length))

/-- Modelled from the spec: ReplayBuffer.get_batch — the replay-buffer class
is not among this repository's sources.  Per the spec it selects batch_size
episodes among those of length at least window_length and, for each, a start
index making the window fit entirely inside the episode; the random draws
are supplied by the explicit choice arguments standing for the RNG, and the
call raises InsufficientDataError when fewer than batch_size eligible
episodes exist. -/
def sampleBatch (buf : List BimodalEpisode) (b w : ℕ)
    (epChoice startChoice : ℕ → ℕ) : Except PyErr (List BimodalEpisode) :=
  let el := eligibleEpisodes w buf
  if el.length < b then .error .insufficientData
  else
    .ok ((List.range b).map (fun i =>
      let e := el.getD (epChoice i % el.length) []
      (e.drop (startChoice i % (e.length - w + 1))).take w))

/-- Stacked action tensor: torch.FloatTensor of the integer action array,
entry by entry the float32 rounding of the action index. -/
def actionsStack (ws : List BimodalEpisode) : List (List ℚ) :=
  ws.map (fun e => e.map (fun tr => ((float32NatRound tr.action : ℕ) : ℚ)))

/-- Stacked reward tensor. -/
def rewardsStack (ws : List BimodalEpisode) : List (List ℚ) :=
  ws.map (fun e => e.map (fun tr => tr.reward))

/-- Stacked done tensor as floats: one on a terminal step, zero otherwise. -/
def doneStack (ws : List BimodalEpisode) : List (List ℚ) :=
  ws.map (fun e => e.map (fun tr => if tr.done then (1 : ℚ) else 0))

/-- Stacked audio observation tensor. -/
def audioStack (ws : List BimodalEpisode) : List (List Obs) :=
  ws.map (fun e => e.map (fun tr => tr.audio))

/-- Stacked video observation tensor. -/
def videoStack (ws : List BimodalEpisode) : List (List Obs) :=
  ws.map (fun e => e.map (fun tr => tr.video))

/-- Stacked next audio observation tensor. -/
def nextAudioStack (ws : List BimodalEpisode) : List (List Obs) :=
  ws.map (fun e => e.map (fun tr => tr.nextAudio))

/-- Stacked next video observation tensor. -/
def nextVideoStack (ws : List BimodalEpisode) : List (List Obs) :=
  ws.map (fun e => e.map (fun tr => tr.nextVideo))

/-- Per-row maximum of the detached target q-values:
next_q_values.detach().max(dim=1)[0]. -/
def qNextMax (nextQ : List (List TVal)) : List TVal :=
  nextQ.map (fun row => rowMaxT (row.map tvalDetach))

/-- Expected q-values of update_policy_net:
rewards[:, T-1] + (1 - done[:, T-1]) * gamma * Q_next_max, elementwise over
the batch dimension (which all stacked tensors share). -/
def expectedQValues (gamma : ℚ) (T : ℕ) (rewardsB doneB : List (List ℚ))
    (qmax : List TVal) : List TVal :=
  (List.range qmax.length).map (fun b =>
    tvalAdd (tvalConst ((rewardsB.getD b []).getD (T - 1) 0))
      (tvalMul
        (tvalMul
          (tvalSub (tvalConst 1) (tvalConst ((doneB.getD b []).getD (T - 1) 0)))
          (tvalConst gamma))
        (qmax.getD b tvalZero)))

/-- Gather of the policy q-values at the action taken at the last window
index: q_values.gather(1, actions[:, T-1].long().unsqueeze(1)).squeeze(1). -/
def gatherLast (qvals : List (List TVal)) (actionsB : List (List ℚ)) (T : ℕ) :
    List TVal :=
  (List.range qvals.length).map (fun b =>
    (qvals.getD b []).getD (longTrunc ((actionsB.getD b []).getD (T - 1) 0))
      tvalZero)

/-- Modelled from the spec: the regression loss self.loss_fn configured in
the base class (not among this repository's sources) is mean-squared error
with mean reduction. -/
def lossFn (pred targ : List TVal) : TVal :=
  ⟨((List.zip pred targ).map (fun pt => (pt.1.val - pt.2.val) ^ 2)).sum
      / (pred.length : ℚ),
    pred.any TVal.tracked || targ.any TVal.tracked⟩

/-- Inner helper compute_avg_and_std of update_policy_net: the sum of the
per-tensor means, and the square root of the summed squared per-tensor
standard deviations, each divided by the number of tensors; a zero count
raises ZeroDivisionError.  The torch reductions mean and std and math.sqrt
are external numeric collaborators passed in as functions. -/
def computeAvgAndStd (meanFn stdFn : List ℚ → ℚ) (sqrtFn : ℚ → ℚ)
    (ps : List PTensor) : Except PyErr (ℚ × ℚ) :=
  let totalMean := (ps.map (fun p => meanFn p.data)).sum
  let totalStd := sqrtFn ((ps.map (fun p => stdFn p.data ^ 2)).sum)
  if ps.length = 0 then .error .zeroDivision
  else .ok (totalMean / (ps.length : ℚ), totalStd / (ps.length : ℚ))

/-- Gradient statistics of update_policy_net: parameters whose grad slot is
None are filtered out, then the sums of the per-tensor gradient means and of
the per-tensor gradient standard deviations are each divided by the count of
the remaining parameters; a zero count raises ZeroDivisionError. -/
def gradientStats (meanFn stdFn : List ℚ → ℚ) (ps : List PState) :
    Except PyErr (ℚ × ℚ) :=
  let gps := ps.filter (fun p => p.grad.isSome)
  if gps.length = 0 then .error .zeroDivision
  else
    .ok
      (((gps.map (fun p => meanFn (p.grad.getD ⟨[], []⟩).data)).sum)
          / (gps.length : ℚ),
        ((gps.map (fun p => stdFn (p.grad.getD ⟨[], []⟩).data)).sum)
          / (gps.length : ℚ))

/-- Gradient slots after optimizer.zero_grad() followed by loss.backward():
zero_grad clears the optimizer's registered slots, then the backward pass
writes autograd's result (possibly None for a parameter disconnected from
the loss graph) into every policy parameter slot. -/
def gradsAfterBackward (policyRefs optimRefs : List ℕ) (old : ℕ → Option PTensor)
    (oracle : ℕ → Option PTensor) : ℕ → Option PTensor :=
  fun r =>
    if r ∈ policyRefs then oracle r
    else if r ∈ optimRefs then none
    else old r

/-- optimizer.step(): the update rule is applied to exactly the parameters
the optimizer was registered on. -/
def optimizerStep (optimRefs : List ℕ)
    (stepRule : PTensor → Option PTensor → PTensor) (store : ℕ → PTensor)
    (grads : ℕ → Option PTensor) : ℕ → PTensor :=
  fun r => if r ∈ optimRefs then stepRule (store r) (grads r) else store r

/-- update_policy_net of BimodalDRQNAlgorithm.  The guard compares the
number of stored episodes with batch_size and returns None below it; then
the batch is sampled, the stacked tensors are built, both networks are
unrolled from fresh zero hidden states, the temporal-difference loss is
formed from the last window index only, gradients are recomputed, the
descriptive statistics are evaluated (they can raise), and the optimizer
steps the registered parameters.  The returned triple is the Python return
value, the new algorithm state and the observable effects. -/
def updatePolicyNet (policyNet targetNet : DualNet)
    (meanFn stdFn : List ℚ → ℚ) (sqrtFn : ℚ → ℚ)
    (gradOracle : ℕ → Option PTensor)
    (stepRule : PTensor → Option PTensor → PTensor)
    (epChoice startChoice : ℕ → ℕ) (s : AlgState) :
    Except PyErr (Option ℚ × AlgState × List UEvent) :=
  if s.replayBuffer.length < s.batchSize then .ok (none, s, [])
  else
    match sampleBatch s.replayBuffer s.batchSize s.timeStep epChoice startChoice with
    | .error e => .error e
    | .ok ws =>
      match computeAvgAndStd meanFn stdFn sqrtFn
          (s.policyRefs.map (fun r => s.store r)) with
      | .error e => .error e
      | .ok _ =>
        match computeAvgAndStd meanFn stdFn sqrtFn
            ((s.policyRefs.map (fun r => s.store r)).filter
              (fun p => decide (1 < p.shape.length))) with
        | .error e => .error e
        | .ok _ =>
          match gradientStats meanFn stdFn
              (s.policyRefs.map (fun r =>
                ⟨s.store r,
                  gradsAfterBackward s.policyRefs s.optimRefs s.grads gradOracle r⟩)) with
          | .error e => .error e
          | .ok _ =>
            .ok
              (some (lossFn
                  (gatherLast
                    (policyNet.forward (audioStack ws) (videoStack ws)
                      s.batchSize s.timeStep (policyNet.initHidden s.batchSize).1
                      (policyNet.initHidden s.batchSize).2).1
                    (actionsStack ws) s.timeStep)
                  ((expectedQValues s.gamma s.timeStep (rewardsStack ws)
                      (doneStack ws)
                      (qNextMax
                        (targetNet.forward (nextAudioStack ws) (nextVideoStack ws)
                          s.batchSize s.timeStep (targetNet.initHidden s.batchSize).1
                          (targetNet.initHidden s.batchSize).2).1)).map
                    tvalDetach)).val,
                { s with
                  store := optimizerStep s.optimRefs stepRule s.store
                    (gradsAfterBackward s.policyRefs s.optimRefs s.grads gradOracle)
                  grads := gradsAfterBackward s.policyRefs s.optimRefs s.grads gradOracle },
                [UEvent.sampledBatch, UEvent.computedLoss, UEvent.backward,
                  UEvent.steppedOptimizer])

/-- Flattened q-value vector out of the single-step forward pass made by
get_next_hidden_state (current_qs of the source, flattened as .argmax()
does). -/
def actionQVector (net : DualNet) (state : BimodalObs)
    (hiddenState cellState : Hidden) : List ℚ :=
  ((net.forward [[state.sound]] [[state.vision]] 1 1 hiddenState cellState).1).flatten.map
    TVal.val

/-- get_next_hidden_state of BimodalDRQNAlgorithm: reads the sound and
vision entries of the observation, switches the policy network to eval
mode, runs one forward pass with batch size one and time step one inside
torch.no_grad, switches the network back to train mode and returns the
argmax action, the new recurrent pair, the module mode the caller observes
afterwards and the trace of forward calls made.  The mode the network had
before the call (modeBefore) is overwritten unconditionally. -/
def getNextHiddenState (net : DualNet) (modeBefore : NetMode)
    (state : BimodalObs) (hiddenState cellState : Hidden) :
    ℕ × (Hidden × Hidden) × NetMode × List ForwardCall :=
  (listArgmax (actionQVector net state hiddenState cellState),
    (net.forward [[state.sound]] [[state.vision]] 1 1 hiddenState cellState).2,
    NetMode.train,
    [⟨1, 1, false, NetMode.evalMode⟩])

/-- append_transition_to_episode: builds a BimodalTransition from the sound
and vision entries of the two observations together with action, reward and
done, and appends it at the end of the episode. -/
def appendTransitionToEpisode (episode : BimodalEpisode) (state : BimodalObs)
    (action : ℕ) (nextState : BimodalObs) (reward : ℚ) (done : Bool) :
    BimodalEpisode :=
  episode ++
    [⟨state.sound, state.vision, action, nextState.sound, nextState.vision,
      reward, done⟩]

/-! Helper lemmas about list indexing. -/

lemma getD_append_lt {α : Type} (l l2 : List α) (j : ℕ) (d : α) (h : j < l.length) :
    (l ++ l2).getD j d = l.getD j d := by
  simp [List.getD_eq_getElem?_getD, List.getElem?_append, h]

lemma getD_append_len {α : Type} (l l2 : List α) (x d : α) :
    (l ++ x :: l2).getD l.length d = x := by
  rw [List.getD_eq_getElem?_getD, List.getElem?_append_right (le_refl _)]
  simp

lemma getD_range_map {α : Type} (f : ℕ → α) (n b : ℕ) (d : α) (h : b < n) :
    ((List.range n).map f).getD b d = f b := by
  simp [List.getD_eq_getElem?_getD, List.getElem?_map, List.getElem?_range h]

lemma getD_map_of_lt {α β : Type} (f : α → β) (l : List α) (b : ℕ) (d : β) (d2 : α)
    (h : b < l.length) : (l.map f).getD b d = f (l.getD b d2) := by
  rw [List.getD_eq_getElem?_getD, List.getElem?_map,
    List.getElem?_eq_getElem h, List.getD_eq_getElem l d2 h]
  rfl

/-! Helper lemmas about the argmax scan. -/

lemma argmaxAux_spec (xs : List ℚ) :
    ∀ (pre : List ℚ) (bi : ℕ),
      bi < pre.length →
      (∀ j, j < pre.length → pre.getD j 0 ≤ pre.getD bi 0) →
      (∀ j, j < bi → pre.getD j 0 < pre.getD bi 0) →
      argmaxAux xs pre.length bi (pre.getD bi 0) < (pre ++ xs).length ∧
      (∀ j, j < (pre ++ xs).length →
        (pre ++ xs).getD j 0
          ≤ (pre ++ xs).getD (argmaxAux xs pre.length bi (pre.getD bi 0)) 0) ∧
      (∀ j, j < argmaxAux xs pre.length bi (pre.getD bi 0) →
        (pre ++ xs).getD j 0
          < (pre ++ xs).getD (argmaxAux xs pre.length bi (pre.getD bi 0)) 0) := by
  induction xs with
  | nil =>
    intro pre bi hbi hmax hfirst
    simp only [argmaxAux, List.append_nil]
    exact ⟨hbi, hmax, hfirst⟩
  | cons x xs ih =>
    intro pre bi hbi hmax hfirst
    have hcat : pre ++ x :: xs = (pre ++ [x]) ++ xs := by simp
    have hlen : (pre ++ [x]).length = pre.length + 1 := by simp
    have hx : (pre ++ [x]).getD pre.length 0 = x := getD_append_len pre [] x 0
    by_cases hlt : pre.getD bi 0 < x
    · have h1 : pre.length < (pre ++ [x]).length := by simp
      have hmax1 : ∀ j, j < (pre ++ [x]).length →
          (pre ++ [x]).getD j 0 ≤ (pre ++ [x]).getD pre.length 0 := by
        intro j hj
        rw [hx]
        rw [hlen, Nat.lt_succ_iff_lt_or_eq] at hj
        rcases hj with hj | rfl
        · rw [getD_append_lt pre [x] j 0 hj]
          exact le_of_lt (lt_of_le_of_lt (hmax j hj) hlt)
        · rw [hx]
      have hfirst1 : ∀ j, j < pre.length →
          (pre ++ [x]).getD j 0 < (pre ++ [x]).getD pre.length 0 := by
        intro j hj
        rw [hx, getD_append_lt pre [x] j 0 hj]
        exact lt_of_le_of_lt (hmax j hj) hlt
      obtain ⟨c1, c2, c3⟩ := ih (pre ++ [x]) pre.length h1 hmax1 hfirst1
      rw [hcat]
      simp only [argmaxAux]
      rw [if_pos hlt]
      rw [hlen, hx] at c1 c2 c3
      exact ⟨c1, c2, c3⟩
    · have h2 : bi < (pre ++ [x]).length := by rw [hlen]; omega
      have hbv : (pre ++ [x]).getD bi 0 = pre.getD bi 0 :=
        getD_append_lt pre [x] bi 0 hbi
      have hmax2 : ∀ j, j < (pre ++ [x]).length →
          (pre ++ [x]).getD j 0 ≤ (pre ++ [x]).getD bi 0 := by
        intro j hj
        rw [hbv]
        rw [hlen, Nat.lt_succ_iff_lt_or_eq] at hj
        rcases hj with hj | rfl
        · rw [getD_append_lt pre [x] j 0 hj]
          exact hmax j hj
        · rw [hx]
          exact le_of_not_lt hlt
      have hfirst2 : ∀ j, j < bi →
          (pre ++ [x]).getD j 0 < (pre ++ [x]).getD bi 0 := by
        intro j hj
        rw [hbv, getD_append_lt pre [x] j 0 (lt_trans hj hbi)]
        exact hfirst j hj
      obtain ⟨c1, c2, c3⟩ := ih (pre ++ [x]) bi h2 hmax2 hfirst2
      rw [hcat]
      simp only [argmaxAux]
      rw [if_neg hlt]
      rw [hlen, hbv] at c1 c2 c3
      exact ⟨c1, c2, c3⟩

lemma listArgmax_spec (l : List ℚ) (h : l ≠ []) :
    listArgmax l < l.length ∧
    (∀ j, j < l.length → l.getD j 0 ≤ l.getD (listArgmax l) 0) ∧
    (∀ j, j < listArgmax l → l.getD j 0 < l.getD (listArgmax l) 0) := by
  cases l with
  | nil => exact absurd rfl h
  | cons x xs =>
    have hmax0 : ∀ j, j < ([x] : List ℚ).length → ([x] : List ℚ).getD j 0 ≤ ([x] : List ℚ).getD 0 0 := by
      intro j hj
      have : j = 0 := by simpa using Nat.lt_one_iff.mp (by simpa using hj)
      subst this
      exact le_refl _
    have hfirst0 : ∀ j, j < 0 → ([x] : List ℚ).getD j 0 < ([x] : List ℚ).getD 0 0 := by
      intro j hj
      exact absurd hj (Nat.not_lt_zero j)
    have hres := argmaxAux_spec xs [x] 0 (by simp) hmax0 hfirst0
    simpa using hres

/-! Helper lemmas about the max reduction. -/

lemma foldl_tmax2_init_le (xs : List TVal) :
    ∀ acc : TVal, acc.val ≤ (xs.foldl tmax2 acc).val := by
  induction xs with
  | nil => intro acc; exact le_refl _
  | cons y ys ih =>
    intro acc
    exact le_trans (le_max_left acc.val y.val) (ih (tmax2 acc y))

lemma foldl_tmax2_mem_le (xs : List TVal) :
    ∀ (acc q : TVal), q ∈ xs → q.val ≤ (xs.foldl tmax2 acc).val := by
  induction xs with
  | nil => intro _ q hq; exact absurd hq (List.not_mem_nil q)
  | cons y ys ih =>
    intro acc q hq
    rcases List.mem_cons.mp hq with rfl | hq2
    · exact le_trans (le_max_right acc.val q.val) (foldl_tmax2_init_le ys (tmax2 acc q))
    · exact ih (tmax2 acc y) q hq2

lemma foldl_tmax2_attained (xs : List TVal) :
    ∀ acc : TVal, (xs.foldl tmax2 acc).val = acc.val ∨
      ∃ q ∈ xs, (xs.foldl tmax2 acc).val = q.val := by
  induction xs with
  | nil => intro acc; exact Or.inl rfl
  | cons y ys ih =>
    intro acc
    rcases ih (tmax2 acc y) with h | ⟨q, hq, hv⟩
    · rcases max_choice acc.val y.val with hm | hm
      · exact Or.inl (h.trans hm)
      · exact Or.inr ⟨y, List.mem_cons_self y ys, h.trans hm⟩
    · exact Or.inr ⟨q, List.mem_cons_of_mem y hq, hv⟩

lemma foldl_tmax2_untracked (xs : List TVal) :
    ∀ acc : TVal, acc.tracked = false → (∀ q ∈ xs, q.tracked = false) →
      (xs.foldl tmax2 acc).tracked = false := by
  induction xs with
  | nil => intro acc ha _; exact ha
  | cons y ys ih =>
    intro acc ha hall
    refine ih (tmax2 acc y) ?_ ?_
    · show (acc.tracked || y.tracked) = false
      rw [ha, hall y (List.mem_cons_self y ys)]
      rfl
    · intro q hq
      exact hall q (List.mem_cons_of_mem y hq)

lemma rowMaxT_mem_le (row : List TVal) (q : TVal) (hq : q ∈ row) :
    q.val ≤ (rowMaxT row).val := by
  cases row with
  | nil => exact absurd hq (List.not_mem_nil q)
  | cons x xs =>
    rcases List.mem_cons.mp hq with rfl | h2
    · exact foldl_tmax2_init_le xs q
    · exact foldl_tmax2_mem_le xs x q h2

lemma rowMaxT_attained (row : List TVal) (h : row ≠ []) :
    ∃ q ∈ row, q.val = (rowMaxT row).val := by
  cases row with
  | nil => exact absurd rfl h
  | cons x xs =>
    rcases foldl_tmax2_attained xs x with h2 | ⟨q, hq, hv⟩
    · exact ⟨x, List.mem_cons_self x xs, h2.symm⟩
    · exact ⟨q, List.mem_cons_of_mem x hq, hv.symm⟩

lemma rowMaxT_untracked (row : List TVal) (h : ∀ q ∈ row, q.tracked = false) :
    (rowMaxT row).tracked = false := by
  cases row with
  | nil => rfl
  | cons x xs =>
    exact foldl_tmax2_untracked xs x (h x (List.mem_cons_self x xs))
      (fun q hq => h q (List.mem_cons_of_mem x hq))

/-! Helper lemmas about the float32 round trip. -/

lemma float32NatRound_of_lt {a : ℕ} (h : a < 2 ^ 24) : float32NatRound a = a := by
  have hlog : a.log2 ≤ 23 := by
    rcases Nat.eq_zero_or_pos a with rfl | hpos
    · simp [Nat.log2]
    · exact Nat.lt_succ_iff.mp ((Nat.log2_lt (Nat.pos_iff_ne_zero.mp hpos)).mpr h)
  simp [float32NatRound, hlog]

lemma longTrunc_natCast (n : ℕ) : longTrunc (n : ℚ) = n := by
  simp [longTrunc, Rat.num_natCast, Rat.den_natCast, Int.tdiv_one, Int.toNat_natCast]

/-! Concrete fixtures used by witnesses and counterexamples. -/

def dummyTransition : BimodalTransition := ⟨[], [], 0, [], [], 0, false⟩

def cNet : DualNet :=
  ⟨fun _ _ _ _ h c => ([[tvalConst 1]], h, c),
   fun b => (List.replicate b 0, List.replicate b 0)⟩

def cMean : List ℚ → ℚ := fun _ => 0

def cSqrt : ℚ → ℚ := fun q => q

def cGrad : ℕ → Option PTensor := fun _ => some ⟨[1], [0]⟩

def cStep : PTensor → Option PTensor → PTensor := fun p _ => p

def cChoice : ℕ → ℕ := fun _ => 0

def stubNet : DualNet :=
  ⟨fun _ _ _ _ h c =>
      ([[⟨1, false⟩, ⟨9, false⟩, ⟨9, false⟩, ⟨0, false⟩]], h, c),
   fun b => (List.replicate b 0, List.replicate b 0)⟩

def stubObs : BimodalObs := ⟨[], []⟩

def shortEpisode : BimodalEpisode := [dummyTransition]

def s1 : AlgState :=
  { store := fun _ => ⟨[1, 1], [0]⟩
    grads := fun _ => none
    policyRefs := [0]
    targetRefs := [1]
    optimRefs := [0]
    replayBuffer := [shortEpisode]
    batchSize := 1
    timeStep := 2
    gamma := 1 }

def s0 : AlgState :=
  { store := fun _ => ⟨[1, 1], [0]⟩
    grads := fun _ => none
    policyRefs := [0]
    targetRefs := [1]
    optimRefs := [0]
    replayBuffer := []
    batchSize := 1
    timeStep := 1
    gamma := 1 }

def noGradParam : PState := ⟨⟨[1], [0]⟩, none⟩

def gradParam : PState := ⟨⟨[1], [0]⟩, some ⟨[1], [2]⟩⟩

/-- C1 (amended): when the replay buffer stores fewer than batch_size
episodes (eligible or not — the guard counts stored episodes), the call to
update_policy_net returns None, samples no batch, computes no loss, emits
no effect, and leaves the whole algorithm state (network parameters,
gradient slots, optimizer registration) unchanged. -/
theorem update_skips_when_buffer_small (policyNet targetNet : DualNet)
    (meanFn stdFn : List ℚ → ℚ) (sqrtFn : ℚ → ℚ)
    (gradOracle : ℕ → Option PTensor)
    (stepRule : PTensor → Option PTensor → PTensor)
    (epChoice startChoice : ℕ → ℕ) (s : AlgState)
    (h : s.replayBuffer.length < s.batchSize) :
    updatePolicyNet policyNet targetNet meanFn stdFn sqrtFn gradOracle stepRule
      epChoice startChoice s = .ok (none, s, []) := by
  unfold updatePolicyNet
  rw [if_pos h]

/-- C1 counterexample: a buffer holding one stored episode of length one
with batch size one and window length two has fewer than batch_size
eligible episodes, yet the guard (which counts stored episodes) does not
fire and the call raises InsufficientDataError from the sampler instead of
returning None. -/
theorem update_guard_counterexample :
    (eligibleEpisodes s1.timeStep s1.replayBuffer).length < s1.batchSize
    ∧ ¬ s1.replayBuffer.length < s1.batchSize
    ∧ updatePolicyNet cNet cNet cMean cMean cSqrt cGrad cStep cChoice cChoice s1
        = .error .insufficientData
    ∧ ∀ out, ¬ updatePolicyNet cNet cNet cMean cMean cSqrt cGrad cStep cChoice
        cChoice s1 = .ok out := by
  have hrun : updatePolicyNet cNet cNet cMean cMean cSqrt cGrad cStep cChoice
      cChoice s1 = .error .insufficientData := by rfl
  refine ⟨by decide, by decide, hrun, ?_⟩
  intro out hout
  rw [hrun] at hout
  exact Except.noConfusion hout

/-- Witness for the amended C1 at a concrete empty buffer. -/
theorem update_skips_witness :
    s0.replayBuffer.length < s0.batchSize
    ∧ updatePolicyNet cNet cNet cMean cMean cSqrt cGrad cStep cChoice cChoice s0
        = .ok (none, s0, []) :=
  ⟨by decide, update_skips_when_buffer_small cNet cNet cMean cMean cSqrt cGrad
      cStep cChoice cChoice s0 (by decide)⟩

/-- C3 (amended): a parameter whose gradient is absent is excluded from the
gradient average and standard deviation (inserting it anywhere changes
nothing), and when at least one parameter carries a gradient the
computation succeeds without division by zero; with no gradient-bearing
parameter it raises ZeroDivisionError (see the counterexample). -/
theorem gradient_stats_excludes_absent (meanFn stdFn : List ℚ → ℚ)
    (ps1 ps2 : List PState) (p0 : PState) (h0 : p0.grad = none)
    (hne : (ps1 ++ ps2).any (fun p => p.grad.isSome) = true) :
    gradientStats meanFn stdFn (ps1 ++ p0 :: ps2)
        = gradientStats meanFn stdFn (ps1 ++ ps2)
    ∧ exceptOk (gradientStats meanFn stdFn (ps1 ++ ps2)) = true := by
  have hfilter : (ps1 ++ p0 :: ps2).filter (fun p => p.grad.isSome)
      = (ps1 ++ ps2).filter (fun p => p.grad.isSome) := by
    simp [List.filter_append, List.filter_cons, h0]
  constructor
  · simp only [gradientStats]
    rw [hfilter]
  · obtain ⟨q, hq, hgq⟩ := List.any_eq_true.mp hne
    have hmem : q ∈ (ps1 ++ ps2).filter (fun p => p.grad.isSome) :=
      List.mem_filter.mpr ⟨hq, hgq⟩
    have hlen : ¬ ((ps1 ++ ps2).filter (fun p => p.grad.isSome)).length = 0 := by
      intro hz
      rw [List.length_eq_zero] at hz
      rw [hz] at hmem
      exact absurd hmem (List.not_mem_nil q)
    simp only [gradientStats]
    rw [if_neg hlen]
    rfl

/-- C3 counterexample: with a parameter present but no parameter carrying a
gradient, the division by the count of gradient-bearing parameters is a
division by zero — the computation raises ZeroDivisionError, it is not
guarded. -/
theorem gradient_stats_zero_division :
    gradientStats cMean cMean [noGradParam] = .error .zeroDivision := by rfl

/-- Witness for the amended C3 at concrete parameter lists. -/
theorem gradient_stats_excludes_witness :
    noGradParam.grad = none
    ∧ ([gradParam] ++ [] : List PState).any (fun p => p.grad.isSome) = true
    ∧ (gradientStats cMean cMean ([gradParam] ++ noGradParam :: [])
          = gradientStats cMean cMean ([gradParam] ++ [])
        ∧ exceptOk (gradientStats cMean cMean ([gradParam] ++ [])) = true) :=
  ⟨rfl, by decide,
    gradient_stats_excludes_absent cMean cMean [gradParam] [] noGradParam rfl
      (by decide)⟩

/-- C5: for every q-value vector produced by the policy network during
action selection, get_next_hidden_state returns the index of the maximum
entry, and on ties the first-occurring such index: the action is in range,
every entry is at most the entry at the action, and every entry strictly
before the action is strictly below it. -/
theorem action_is_first_argmax (net : DualNet) (modeBefore : NetMode)
    (state : BimodalObs) (hiddenState cellState : Hidden)
    (hne : actionQVector net state hiddenState cellState ≠ []) :
    (getNextHiddenState net modeBefore state hiddenState cellState).1
        < (actionQVector net state hiddenState cellState).length
    ∧ (∀ j, j < (actionQVector net state hiddenState cellState).length →
        (actionQVector net state hiddenState cellState).getD j 0
          ≤ (actionQVector net state hiddenState cellState).getD
              (getNextHiddenState net modeBefore state hiddenState cellState).1 0)
    ∧ (∀ j, j < (getNextHiddenState net modeBefore state hiddenState cellState).1 →
        (actionQVector net state hiddenState cellState).getD j 0
          < (actionQVector net state hiddenState cellState).getD
              (getNextHiddenState net modeBefore state hiddenState cellState).1 0) :=
  listArgmax_spec (actionQVector net state hiddenState cellState) hne

/-- Witness for C5 on the crafted q-vector of the spec scaled by ten:
[1, 9, 9, 0] has its maximum at the tied indices one and two and the call
yields action index one, the first of the tie. -/
theorem action_is_first_argmax_witness :
    actionQVector stubNet stubObs [] [] ≠ []
    ∧ (getNextHiddenState stubNet NetMode.train stubObs [] []).1 = 1
    ∧ ((getNextHiddenState stubNet NetMode.train stubObs [] []).1
          < (actionQVector stubNet stubObs [] []).length
        ∧ (∀ j, j < (actionQVector stubNet stubObs [] []).length →
            (actionQVector stubNet stubObs [] []).getD j 0
              ≤ (actionQVector stubNet stubObs [] []).getD
                  (getNextHiddenState stubNet NetMode.train stubObs [] []).1 0)
        ∧ (∀ j, j < (getNextHiddenState stubNet NetMode.train stubObs [] []).1 →
            (actionQVector stubNet stubObs [] []).getD j 0
              < (actionQVector stubNet stubObs [] []).getD
                  (getNextHiddenState stubNet NetMode.train stubObs [] []).1 0)) :=
  ⟨by decide, by decide,
    action_is_first_argmax stubNet NetMode.train stubObs [] [] (by decide)⟩

/-- C9: for a nonempty q-value vector, the action produced by
get_next_hidden_state is a plain natural number strictly below the length
of the q-value vector, hence a valid discrete action index. -/
theorem action_index_in_range (net : DualNet) (modeBefore : NetMode)
    (state : BimodalObs) (hiddenState cellState : Hidden)
    (hne : actionQVector net state hiddenState cellState ≠ []) :
    (getNextHiddenState net modeBefore state hiddenState cellState).1
      < (actionQVector net state hiddenState cellState).length :=
  (listArgmax_spec (actionQVector net state hiddenState cellState) hne).1

/-- Witness for C9 on a concrete stub network. -/
theorem action_index_in_range_witness :
    actionQVector stubNet stubObs [] [] ≠ []
    ∧ (getNextHiddenState stubNet NetMode.evalMode stubObs [] []).1
        < (actionQVector stubNet stubObs [] []).length :=
  ⟨by decide, action_index_in_range stubNet NetMode.evalMode stubObs [] [] (by decide)⟩

/-- C6 (amended): get_next_hidden_state makes exactly one forward pass,
with batch size one, time step one, no gradient tracking, the network in
eval mode during the call; the network is in train mode when the call
returns, hence the mode flag observed by the caller is unchanged whenever
the network was in train mode before the call (as it is in this program). -/
theorem mode_restored_to_train (net : DualNet) (modeBefore : NetMode)
    (state : BimodalObs) (hiddenState cellState : Hidden)
    (h : modeBefore = NetMode.train) :
    (getNextHiddenState net modeBefore state hiddenState cellState).2.2.2
        = [⟨1, 1, false, NetMode.evalMode⟩]
    ∧ (getNextHiddenState net modeBefore state hiddenState cellState).2.2.1
        = NetMode.train
    ∧ (getNextHiddenState net modeBefore state hiddenState cellState).2.2.1
        = modeBefore := by
  refine ⟨rfl, rfl, ?_⟩
  rw [h]
  rfl

/-- C6 counterexample: a call made while the network is in eval mode
returns with the mode flag set to train, so the mode flag observed by the
caller is not unchanged across every call. -/
theorem mode_change_counterexample :
    (getNextHiddenState stubNet NetMode.evalMode stubObs [] []).2.2.1
        = NetMode.train
    ∧ ¬ (getNextHiddenState stubNet NetMode.evalMode stubObs [] []).2.2.1
        = NetMode.evalMode :=
  ⟨rfl, by decide⟩

/-- Witness for the amended C6 at a concrete call in train mode. -/
theorem mode_restored_witness :
    NetMode.train = NetMode.train
    ∧ ((getNextHiddenState stubNet NetMode.train stubObs [] []).2.2.2
          = [⟨1, 1, false, NetMode.evalMode⟩]
        ∧ (getNextHiddenState stubNet NetMode.train stubObs [] []).2.2.1
          = NetMode.train
        ∧ (getNextHiddenState stubNet NetMode.train stubObs [] []).2.2.1
          = NetMode.train) :=
  ⟨rfl, mode_restored_to_train stubNet NetMode.train stubObs [] [] rfl⟩

/-- C10: append_transition_to_episode appends exactly one transition built
from the sound and vision entries of the two observations together with
action, reward and done: the length grows by one, every previously stored
transition is unchanged at its index, and the new transition sits at the
end. -/
theorem append_transition_spec (episode : BimodalEpisode) (state : BimodalObs)
    (action : ℕ) (nextState : BimodalObs) (reward : ℚ) (done : Bool) (i : ℕ)
    (h : i < episode.length) :
    (appendTransitionToEpisode episode state action nextState reward done).length
        = episode.length + 1
    ∧ (appendTransitionToEpisode episode state action nextState reward done)[i]?
        = episode[i]?
    ∧ (appendTransitionToEpisode episode state action nextState reward done).getLast?
        = some ⟨state.sound, state.vision, action, nextState.sound,
            nextState.vision, reward, done⟩ := by
  refine ⟨by simp [appendTransitionToEpisode], ?_, ?_⟩
  · simp [appendTransitionToEpisode, List.getElem?_append, h]
  · simp [appendTransitionToEpisode, List.getLast?_concat]

/-- Witness for C10 at a concrete two-step episode. -/
theorem append_transition_witness :
    0 < shortEpisode.length
    ∧ ((appendTransitionToEpisode shortEpisode stubObs 3 stubObs 1 true).length
          = shortEpisode.length + 1
        ∧ (appendTransitionToEpisode shortEpisode stubObs 3 stubObs 1 true)[0]?
          = shortEpisode[0]?
        ∧ (appendTransitionToEpisode shortEpisode stubObs 3 stubObs 1 true).getLast?
          = some ⟨stubObs.sound, stubObs.vision, 3, stubObs.sound, stubObs.vision,
              1, true⟩) :=
  ⟨by decide, append_transition_spec shortEpisode stubObs 3 stubObs 1 true 0 (by decide)⟩

lemma optimizerStep_not_mem (optimRefs : List ℕ)
    (stepRule : PTensor → Option PTensor → PTensor) (store : ℕ → PTensor)
    (grads : ℕ → Option PTensor) (r : ℕ) (h : r ∉ optimRefs) :
    optimizerStep optimRefs stepRule store grads r = store r := by
  unfold optimizerStep
  rw [if_neg h]

/-- C2: the temporal-difference target of every batch entry equals the
reward at the last window index plus gamma times one minus the done flag at
the last window index times the maximum over actions of the target
network's q-values, and the target enters the expression detached (its
tracked flag is false whatever the tracking of the target network's
output). -/
theorem td_target_last_step (g : ℚ) (T : ℕ) (rewardsB doneB : List (List ℚ))
    (nextQ : List (List TVal)) (b : ℕ) (hb : b < nextQ.length)
    (hrow : nextQ.getD b [] ≠ []) :
    ((expectedQValues g T rewardsB doneB (qNextMax nextQ)).getD b tvalZero).val
        = (rewardsB.getD b []).getD (T - 1) 0
          + g * (1 - (doneB.getD b []).getD (T - 1) 0)
            * ((qNextMax nextQ).getD b tvalZero).val
    ∧ ((expectedQValues g T rewardsB doneB (qNextMax nextQ)).getD b tvalZero).tracked
        = false
    ∧ (∀ q ∈ nextQ.getD b [], q.val ≤ ((qNextMax nextQ).getD b tvalZero).val)
    ∧ ∃ q ∈ nextQ.getD b [], q.val = ((qNextMax nextQ).getD b tvalZero).val := by
  have hbq : b < (qNextMax nextQ).length := by
    rw [show (qNextMax nextQ).length = nextQ.length from List.length_map _ _]
    exact hb
  have hqm : (qNextMax nextQ).getD b tvalZero
      = rowMaxT ((nextQ.getD b []).map tvalDetach) :=
    getD_map_of_lt _ nextQ b tvalZero [] hb
  have he : (expectedQValues g T rewardsB doneB (qNextMax nextQ)).getD b tvalZero
      = tvalAdd (tvalConst ((rewardsB.getD b []).getD (T - 1) 0))
          (tvalMul
            (tvalMul
              (tvalSub (tvalConst 1) (tvalConst ((doneB.getD b []).getD (T - 1) 0)))
              (tvalConst g))
            ((qNextMax nextQ).getD b tvalZero)) :=
    getD_range_map _ _ _ _ hbq
  have htr : ((qNextMax nextQ).getD b tvalZero).tracked = false := by
    rw [hqm]
    refine rowMaxT_untracked _ ?_
    intro q hq
    obtain ⟨q0, _, rfl⟩ := List.mem_map.mp hq
    rfl
  refine ⟨?_, ?_, ?_, ?_⟩
  · rw [he]
    simp only [tvalAdd, tvalMul, tvalSub, tvalConst]
    ring
  · rw [he]
    simp only [tvalAdd, tvalMul, tvalSub, tvalConst, Bool.false_or, Bool.or_false]
    exact htr
  · intro q hq
    rw [hqm]
    have := rowMaxT_mem_le ((nextQ.getD b []).map tvalDetach) (tvalDetach q)
      (List.mem_map.mpr ⟨q, hq, rfl⟩)
    simpa [tvalDetach] using this
  · rw [hqm]
    obtain ⟨q2, hq2, hv⟩ := rowMaxT_attained ((nextQ.getD b []).map tvalDetach)
      (by simpa using hrow)
    obtain ⟨q0, hq0, rfl⟩ := List.mem_map.mp hq2
    exact ⟨q0, hq0, by simpa [tvalDetach] using hv⟩

def w2NextQ : List (List TVal) := [[⟨1, true⟩, ⟨2, true⟩]]

def w2Rewards : List (List ℚ) := [[3]]

def w2Dones : List (List ℚ) := [[0]]

/-- Witness for C2 at a concrete one-window batch. -/
theorem td_target_last_step_witness :
    0 < w2NextQ.length
    ∧ w2NextQ.getD 0 [] ≠ []
    ∧ (((expectedQValues 2 1 w2Rewards w2Dones (qNextMax w2NextQ)).getD 0 tvalZero).val
          = (w2Rewards.getD 0 []).getD (1 - 1) 0
            + 2 * (1 - (w2Dones.getD 0 []).getD (1 - 1) 0)
              * ((qNextMax w2NextQ).getD 0 tvalZero).val
      ∧ ((expectedQValues 2 1 w2Rewards w2Dones (qNextMax w2NextQ)).getD 0 tvalZero).tracked
          = false
      ∧ (∀ q ∈ w2NextQ.getD 0 [], q.val ≤ ((qNextMax w2NextQ).getD 0 tvalZero).val)
      ∧ ∃ q ∈ w2NextQ.getD 0 [], q.val = ((qNextMax w2NextQ).getD 0 tvalZero).val) :=
  ⟨by decide, by decide,
    td_target_last_step 2 1 w2Rewards w2Dones w2NextQ 0 (by decide) (by decide)⟩

/-- C4: the loss is built from the gathered policy q-value at the action of
the last window index and the expected q-value of the last window index
only: changing actions, rewards or done flags at any other position leaves
the loss unchanged, and the gathered entry is the policy q-row indexed by
the last-step action. -/
theorem loss_last_step_only (g : ℚ) (T : ℕ) (qvals nextQ : List (List TVal))
    (a1 r1 d1 a2 r2 d2 : List (List ℚ))
    (hagree : ∀ b : ℕ,
      (a1.getD b []).getD (T - 1) 0 = (a2.getD b []).getD (T - 1) 0
      ∧ (r1.getD b []).getD (T - 1) 0 = (r2.getD b []).getD (T - 1) 0
      ∧ (d1.getD b []).getD (T - 1) 0 = (d2.getD b []).getD (T - 1) 0) :
    lossFn (gatherLast qvals a1 T)
        ((expectedQValues g T r1 d1 (qNextMax nextQ)).map tvalDetach)
      = lossFn (gatherLast qvals a2 T)
        ((expectedQValues g T r2 d2 (qNextMax nextQ)).map tvalDetach)
    ∧ ∀ b, b < qvals.length →
        (gatherLast qvals a1 T).getD b tvalZero
          = (qvals.getD b []).getD
              (longTrunc ((a1.getD b []).getD (T - 1) 0)) tvalZero := by
  have hg : gatherLast qvals a1 T = gatherLast qvals a2 T := by
    unfold gatherLast
    refine List.map_congr_left ?_
    intro b _
    rw [(hagree b).1]
  have her : expectedQValues g T r1 d1 (qNextMax nextQ)
      = expectedQValues g T r2 d2 (qNextMax nextQ) := by
    unfold expectedQValues
    refine List.map_congr_left ?_
    intro b _
    rw [(hagree b).2.1, (hagree b).2.2]
  refine ⟨by rw [hg, her], ?_⟩
  intro b hb
  exact getD_range_map _ _ _ _ hb

def w4Q : List (List TVal) := [[⟨5, true⟩, ⟨6, true⟩]]

def w4NextQ : List (List TVal) := [[⟨3, true⟩]]

def w4A1 : List (List ℚ) := [[7, 1]]

def w4A2 : List (List ℚ) := [[0, 1]]

def w4R1 : List (List ℚ) := [[9, 2]]

def w4R2 : List (List ℚ) := [[4, 2]]

def w4D1 : List (List ℚ) := [[1, 0]]

def w4D2 : List (List ℚ) := [[0, 0]]

/-- Witness for C4: two batches differing arbitrarily at the first window
index but agreeing at the last one produce the same loss. -/
theorem loss_last_step_only_witness :
    (∀ b : ℕ,
      (w4A1.getD b []).getD (2 - 1) 0 = (w4A2.getD b []).getD (2 - 1) 0
      ∧ (w4R1.getD b []).getD (2 - 1) 0 = (w4R2.getD b []).getD (2 - 1) 0
      ∧ (w4D1.getD b []).getD (2 - 1) 0 = (w4D2.getD b []).getD (2 - 1) 0)
    ∧ (lossFn (gatherLast w4Q w4A1 2)
          ((expectedQValues 3 2 w4R1 w4D1 (qNextMax w4NextQ)).map tvalDetach)
        = lossFn (gatherLast w4Q w4A2 2)
          ((expectedQValues 3 2 w4R2 w4D2 (qNextMax w4NextQ)).map tvalDetach)
      ∧ ∀ b, b < w4Q.length →
          (gatherLast w4Q w4A1 2).getD b tvalZero
            = (w4Q.getD b []).getD
                (longTrunc ((w4A1.getD b []).getD (2 - 1) 0)) tvalZero) := by
  have hagree : ∀ b : ℕ,
      (w4A1.getD b []).getD (2 - 1) 0 = (w4A2.getD b []).getD (2 - 1) 0
      ∧ (w4R1.getD b []).getD (2 - 1) 0 = (w4R2.getD b []).getD (2 - 1) 0
      ∧ (w4D1.getD b []).getD (2 - 1) 0 = (w4D2.getD b []).getD (2 - 1) 0 := by
    intro b
    cases b with
    | zero => exact ⟨rfl, rfl, rfl⟩
    | succ n => exact ⟨rfl, rfl, rfl⟩
  exact ⟨hagree,
    loss_last_step_only 3 2 w4Q w4NextQ w4A1 w4R1 w4D1 w4A2 w4R2 w4D2 hagree⟩

/-- C8: actions are stored through a float32 tensor and recovered with a
truncating cast before the gather; for an action index below two to the
24th the round trip is exact and the gathered q-value is the policy q-row
entry of the action actually taken at the last window index. -/
theorem action_float_roundtrip (ws : List BimodalEpisode)
    (qvals : List (List TVal)) (T b : ℕ) (hb : b < qvals.length)
    (hbw : b < ws.length) (hT : T - 1 < (ws.getD b []).length)
    (ha : ((ws.getD b []).getD (T - 1) dummyTransition).action < 2 ^ 24) :
    float32NatRound (((ws.getD b []).getD (T - 1) dummyTransition).action)
        = ((ws.getD b []).getD (T - 1) dummyTransition).action
    ∧ longTrunc (((actionsStack ws).getD b []).getD (T - 1) 0)
        = ((ws.getD b []).getD (T - 1) dummyTransition).action
    ∧ (gatherLast qvals (actionsStack ws) T).getD b tvalZero
        = (qvals.getD b []).getD
            (((ws.getD b []).getD (T - 1) dummyTransition).action) tvalZero := by
  have h1 : float32NatRound (((ws.getD b []).getD (T - 1) dummyTransition).action)
      = ((ws.getD b []).getD (T - 1) dummyTransition).action :=
    float32NatRound_of_lt ha
  have h2 : (actionsStack ws).getD b []
      = (ws.getD b []).map (fun tr => ((float32NatRound tr.action : ℕ) : ℚ)) :=
    getD_map_of_lt _ ws b [] [] hbw
  have h3 : ((actionsStack ws).getD b []).getD (T - 1) 0
      = ((float32NatRound (((ws.getD b []).getD (T - 1) dummyTransition).action) : ℕ) : ℚ) := by
    rw [h2]
    exact getD_map_of_lt _ (ws.getD b []) (T - 1) 0 dummyTransition hT
  have h4 : longTrunc (((actionsStack ws).getD b []).getD (T - 1) 0)
      = ((ws.getD b []).getD (T - 1) dummyTransition).action := by
    rw [h3, longTrunc_natCast, h1]
  refine ⟨h1, h4, ?_⟩
  have h5 : (gatherLast qvals (actionsStack ws) T).getD b tvalZero
      = (qvals.getD b []).getD
          (longTrunc (((actionsStack ws).getD b []).getD (T - 1) 0)) tvalZero :=
    getD_range_map _ _ _ _ hb
  rw [h5, h4]

def w8Transition : BimodalTransition := ⟨[], [], 1, [], [], 0, false⟩

def w8Ws : List BimodalEpisode := [[dummyTransition, w8Transition]]

def w8Q : List (List TVal) := [[⟨5, true⟩, ⟨6, true⟩]]

/-- Witness for C8 at a concrete window whose last-step action is one. -/
theorem action_float_roundtrip_witness :
    (0 < w8Q.length ∧ 0 < w8Ws.length ∧ 2 - 1 < (w8Ws.getD 0 []).length
      ∧ ((w8Ws.getD 0 []).getD (2 - 1) dummyTransition).action < 2 ^ 24)
    ∧ (float32NatRound (((w8Ws.getD 0 []).getD (2 - 1) dummyTransition).action)
          = ((w8Ws.getD 0 []).getD (2 - 1) dummyTransition).action
      ∧ longTrunc (((actionsStack w8Ws).getD 0 []).getD (2 - 1) 0)
          = ((w8Ws.getD 0 []).getD (2 - 1) dummyTransition).action
      ∧ (gatherLast w8Q (actionsStack w8Ws) 2).getD 0 tvalZero
          = (w8Q.getD 0 []).getD
              (((w8Ws.getD 0 []).getD (2 - 1) dummyTransition).action) tvalZero) :=
  ⟨⟨by decide, by decide, by decide, by decide⟩,
    action_float_roundtrip w8Ws w8Q 2 0 (by decide) (by decide) (by decide)
      (by decide)⟩

/-- C7: a completed update_policy_net call steps the optimizer on the policy
network's parameters only — every target-network parameter is identical
before and after, anything outside the policy parameter set is untouched —
and the constructor allocates the policy and target parameter references
disjointly, so the two networks never alias the same parameter storage. -/
theorem optimizer_step_policy_only (policyNet targetNet : DualNet)
    (meanFn stdFn : List ℚ → ℚ) (sqrtFn : ℚ → ℚ)
    (gradOracle : ℕ → Option PTensor)
    (stepRule : PTensor → Option PTensor → PTensor)
    (epChoice startChoice : ℕ → ℕ) (s : AlgState)
    (hopt : s.optimRefs = s.policyRefs)
    (hdisj : ∀ r ∈ s.targetRefs, r ∉ s.policyRefs) :
    (∀ l s2 evs,
        updatePolicyNet policyNet targetNet meanFn stdFn sqrtFn gradOracle
            stepRule epChoice startChoice s = .ok (some l, s2, evs) →
        (∀ r ∈ s.targetRefs, s2.store r = s.store r)
          ∧ ∀ r, r ∉ s.policyRefs → s2.store r = s.store r)
    ∧ ∀ n paramInit buf b t g r,
        r ∈ (mkAlgorithm n paramInit buf b t g).targetRefs →
        r ∉ (mkAlgorithm n paramInit buf b t g).policyRefs := by
  constructor
  · intro l s2 evs hrun
    unfold updatePolicyNet at hrun
    split at hrun
    · simp at hrun
    · split at hrun
      · exact Except.noConfusion hrun
      · split at hrun
        · exact Except.noConfusion hrun
        · split at hrun
          · exact Except.noConfusion hrun
          · split at hrun
            · exact Except.noConfusion hrun
            · simp only [Except.ok.injEq, Prod.mk.injEq, Option.some.injEq] at hrun
              obtain ⟨hL, hS, hE⟩ := hrun
              subst hS
              refine ⟨fun r hr => ?_, fun r hr => ?_⟩
              · exact optimizerStep_not_mem s.optimRefs stepRule s.store
                  (gradsAfterBackward s.policyRefs s.optimRefs s.grads gradOracle) r
                  (by rw [hopt]; exact hdisj r hr)
              · exact optimizerStep_not_mem s.optimRefs stepRule s.store
                  (gradsAfterBackward s.policyRefs s.optimRefs s.grads gradOracle) r
                  (by rw [hopt]; exact hr)
  · intro n paramInit buf b t g r hr hrp
    simp only [mkAlgorithm, List.mem_map, List.mem_range] at hr hrp
    obtain ⟨x, hx, rfl⟩ := hr
    omega

def w7Transition : BimodalTransition := ⟨[0], [0], 0, [0], [0], 1, true⟩

def w7 : AlgState :=
  { store := fun _ => ⟨[1, 1], [3]⟩
    grads := fun _ => none
    policyRefs := [0]
    targetRefs := [1]
    optimRefs := [0]
    replayBuffer := [[w7Transition]]
    batchSize := 1
    timeStep := 1
    gamma := 1 }

/-- Witness for C7 at a concrete state whose update completes. -/
theorem optimizer_step_policy_only_witness :
    w7.optimRefs = w7.policyRefs
    ∧ (∀ r ∈ w7.targetRefs, r ∉ w7.policyRefs)
    ∧ exceptOk (updatePolicyNet cNet cNet cMean cMean cSqrt cGrad cStep cChoice
        cChoice w7) = true
    ∧ ((∀ l s2 evs,
          updatePolicyNet cNet cNet cMean cMean cSqrt cGrad cStep cChoice cChoice w7
            = .ok (some l, s2, evs) →
          (∀ r ∈ w7.targetRefs, s2.store r = w7.store r)
            ∧ ∀ r, r ∉ w7.policyRefs → s2.store r = w7.store r)
      ∧ ∀ n paramInit buf b t g r,
          r ∈ (mkAlgorithm n paramInit buf b t g).targetRefs →
          r ∉ (mkAlgorithm n paramInit buf b t g).policyRefs) :=
  ⟨rfl, by decide, by rfl,
    optimizer_step_policy_only cNet cNet cMean cMean cSqrt cGrad cStep cChoice
      cChoice w7 rfl (by decide)⟩
